import Mathlib

/-!
Shallow embedding of `packages/core-rust/python/agent_wrapper.py` — the
Python agent-side half of the stdio IPC protocol: the `IPCMessage` data
model, the `AgentWrapper` dispatcher (`handle_message` and the kind-specific
handlers), the read loop of `AgentWrapper.run`, and the heartbeat loop,
together with theorems settling the specification claims.

Modelling conventions:
* Parsed JSON values (the result of `json.loads`) are the inductive `Json`;
  an `obj` holds its key/value pairs in insertion order with distinct keys,
  as a parsed Python dict does.
* Python exceptions are `Except String` values carrying `str(e)`; the
  diagnostic traceback text attached to error responses is not modelled
  (it is carried as `Json.null`).
* A capability of the behavior object is a function from its (positional)
  argument list to a result or a raised exception; synchronous and
  coroutine capabilities behave identically at this level and are modelled
  uniformly, mirroring the `iscoroutinefunction` branches that perform the
  same call either way.
* Side effects are recorded as an event trace: `Ev.invoke caller name args`
  for each capability invocation (tagged with the Python call site) and
  `Ev.out src m` for each message written to stdout by `send_message`
  (tagged with the handler that produced it).
-/

/-- A parsed JSON value (the result of `json.loads`). Object fields are in
insertion order with distinct keys, like a parsed Python dict. -/
inductive Json where
  | null : Json
  | bool : Bool → Json
  | num : Int → Json
  | str : String → Json
  | arr : List Json → Json
  | obj : List (String × Json) → Json

namespace Json

/-- Python `==` between a parsed JSON value and a string literal, as in
`message.message_type == "Execute"`: true exactly when the value is that
string. -/
def isStr (j : Json) (s : String) : Bool :=
  match j with
  | .str t => t == s
  | _ => false

/-- Python truthiness of a parsed JSON value (`if params:`): `None`,
`False`, `0`, `""`, `[]` and `{}` are falsy. -/
def truthy : Json → Bool
  | .null => false
  | .bool b => b
  | .num n => n != 0
  | .str s => s != ""
  | .arr xs => !xs.isEmpty
  | .obj kvs => !kvs.isEmpty

/-- The Python type name of a parsed JSON value, as it appears in
`TypeError`/`AttributeError` messages. -/
def pyTypeName : Json → String
  | .null => "NoneType"
  | .bool _ => "bool"
  | .num _ => "int"
  | .str _ => "str"
  | .arr _ => "list"
  | .obj _ => "dict"

mutual
/-- Python `str`/`repr` of a parsed JSON value, as interpolated by
f-strings such as `f"Unknown message type: {message.message_type}"`. -/
def pyRepr : Json → String
  | .null => "None"
  | .bool true => "True"
  | .bool false => "False"
  | .num n => toString n
  | .str s => "\x27" ++ s ++ "\x27"
  | .arr xs => "[" ++ pyReprList xs ++ "]"
  | .obj kvs => "\x7b" ++ pyReprObj kvs ++ "\x7d"

/-- Comma-separated reprs of the elements of a Python list. -/
def pyReprList : List Json → String
  | [] => ""
  | [x] => pyRepr x
  | x :: rest => pyRepr x ++ ", " ++ pyReprList rest

/-- Comma-separated `'key': value` reprs of the entries of a Python dict. -/
def pyReprObj : List (String × Json) → String
  | [] => ""
  | [(k, v)] => "\x27" ++ k ++ "\x27: " ++ pyRepr v
  | (k, v) :: rest => "\x27" ++ k ++ "\x27: " ++ pyRepr v ++ ", " ++ pyReprObj rest
end

/-- `d.get(key)` on a parsed Python dict: the stored value, or `None` when
the key is absent. -/
def dictGet (kvs : List (String × Json)) (key : String) : Json :=
  match kvs.lookup key with
  | some v => v
  | none => .null

/-- Python `value.get(key)`: total on dicts, an `AttributeError` on any
other value (e.g. `message.payload.get('method')` when the payload is
`None`). -/
def pyGet (j : Json) (key : String) : Except String Json :=
  match j with
  | .obj kvs => .ok (dictGet kvs key)
  | other =>
      .error ("\x27" ++ other.pyTypeName ++ "\x27 object has no attribute \x27get\x27")

/-- One step of `dict.update`: overwrite the value of an existing key in
place, or append a new key at the end (Python dict semantics). -/
def updateKey : List (String × Json) → String → Json → List (String × Json)
  | [], k, v => [(k, v)]
  | (k', v') :: rest, k, v =>
      if k' = k then (k, v) :: rest else (k', v') :: updateKey rest k v

/-- `base.update(upd)` on parsed Python dicts. -/
def dictUpdate (base upd : List (String × Json)) : List (String × Json) :=
  upd.foldl (fun acc kv => updateKey acc kv.1 kv.2) base

end Json

/-! ## The message data model (`IPCMessage`) -/

/-- `IPCMessage`: one protocol envelope. `id` and `message_type` are
arbitrary parsed JSON values (`from_dict` copies whatever the host sent,
and outgoing messages store either a bare string tag or a single-key
object tag). The `timestamp` is advisory and not inspected anywhere; a
`none` stands for the wall-clock time filled in by the constructor. -/
structure IPCMessage where
  id : Json
  message_type : Json
  payload : Json
  timestamp : Option String


/-- `IPCMessage.from_dict`: requires the `id` and `message_type` keys
(`data['id']` / `data['message_type']` raise `KeyError` when absent, and
`TypeError` on a non-dict), defaults `payload` to `None`, and keeps the
sender's timestamp when present. -/
def IPCMessage.from_dict (j : Json) : Except String IPCMessage :=
  match j with
  | .obj kvs =>
      match kvs.lookup "id" with
      | none => .error "KeyError: \x27id\x27"
      | some idv =>
          match kvs.lookup "message_type" with
          | none => .error "KeyError: \x27message_type\x27"
          | some mt =>
              .ok { id := idv
                    message_type := mt
                    payload := Json.dictGet kvs "payload"
                    timestamp :=
                      match kvs.lookup "timestamp" with
                      | some (.str t) => some t
                      | _ => none }
  | other =>
      .error ("TypeError: \x27" ++ other.pyTypeName ++ "\x27 object is not subscriptable")

/-! ## The behavior object and its capabilities -/

/-- A capability of the behavior object: a named operation, applied to a
positional argument list; it returns a result or raises (`Except.error`
carries `str(e)`). Synchronous and coroutine capabilities are modelled
uniformly. -/
def Capability : Type := List Json → Except String Json

/-- The behavior object loaded by `initialize`: a bag of named operations
(`hasattr`/`getattr` resolve names against this association list, exactly
as given — no case folding, no aliasing). -/
structure Agent where
  ops : List (String × Capability)

/-- `hasattr(agent, name)` for a string attribute name. -/
def Agent.hasOp (ag : Agent) (name : String) : Bool :=
  (ag.ops.lookup name).isSome

/-- `getattr(agent, name)` when present. -/
def Agent.findOp (ag : Agent) (name : String) : Option Capability :=
  ag.ops.lookup name

/-- The mutable state of an `AgentWrapper` instance: the loaded behavior
object, the two environment-supplied identity strings (possibly `None`),
and the `is_running` flag. -/
structure WState where
  agent : Agent
  agent_id : Json
  agent_script_path : Json
  is_running : Bool

/-- One recorded side effect: a capability invocation (tagged with the
Python call site performing it) or a message written to stdout by
`send_message` (tagged with the handler that produced it). -/
inductive Ev where
  | invoke : String → String → List Json → Ev
  | out : String → IPCMessage → Ev


/-! ## Building outgoing envelopes -/

/-- The success envelope every handler returns: the object-tagged
`Response` kind carrying `request_id` and `result`, with the result
duplicated in the payload. -/
def mkReply (requestId : Json) (result : Json) : IPCMessage :=
  { id := requestId
    message_type := .obj [("Response", .obj [("request_id", requestId), ("result", result)])]
    payload := result
    timestamp := none }

/-- `AgentWrapper.create_error_response`: the object-tagged `Error` kind
with the message and optional diagnostic trace (trace text not modelled,
carried as `null`). -/
def create_error_response (requestId : Json) (errorMessage : String) (tb : Json) : IPCMessage :=
  { id := requestId
    message_type := .obj [("Error", .obj [("message", .str errorMessage), ("traceback", tb)])]
    payload := .obj [("error", .str errorMessage), ("traceback", tb)]
    timestamp := none }

/-- `AgentWrapper.send_heartbeat`: a bare-string `Heartbeat` kind with a
fresh id built from the current wall-clock timestamp. -/
def heartbeatMessage (now : String) : IPCMessage :=
  { id := .str ("heartbeat_" ++ now)
    message_type := .str "Heartbeat"
    payload := .null
    timestamp := none }

/-- `AgentWrapper.send_event`: an object-tagged `Event` kind with a fresh
id built from the current wall-clock timestamp. -/
def eventMessage (now : String) (event_type : String) (data : Json) : IPCMessage :=
  { id := .str ("event_" ++ now)
    message_type := .obj [("Event", .obj [("event_type", .str event_type), ("data", data)])]
    payload := data
    timestamp := none }

/-! ## The kind-specific handlers -/

/-- Field extraction shared by `handle_execute` and `handle_trigger`:
`message.message_type.get(key) if isinstance(message.message_type, dict)
else message.payload.get(key)`. The `dict.get` on an object tag is total;
the `payload.get` fallback raises when the payload is not a dict. -/
def extractField (msg : IPCMessage) (key : String) : Except String Json :=
  match msg.message_type with
  | .obj kvs => .ok (Json.dictGet kvs key)
  | _ => Json.pyGet msg.payload key

/-- The `{"status": "configured", "config": config}` result of
`configure_agent`. -/
def configuredResult (config : Json) : Json :=
  .obj [("status", .str "configured"), ("config", config)]

/-- `AgentWrapper.configure_agent`: invoke the behavior object's
`configure` with the supplied config (unconditionally one argument) when
present; when that completes without raising, invoke its `start` with no
arguments when present; any raised exception is re-raised to the caller. -/
def configure_agent (ag : Agent) (config : Json) : List Ev × Except String Json :=
  let (cfgEvs, cfgRes) :=
    match ag.findOp "configure" with
    | some cap => ([Ev.invoke "configure_agent" "configure" [config]], (cap [config]).map fun _ => ())
    | none => ([], Except.ok ())
  match cfgRes with
  | .error e => (cfgEvs, .error e)
  | .ok _ =>
      match ag.findOp "start" with
      | some cap =>
          let evs := cfgEvs ++ [Ev.invoke "configure_agent" "start" []]
          match cap [] with
          | .error e => (evs, .error e)
          | .ok _ => (evs, .ok (configuredResult config))
      | none => (cfgEvs, .ok (configuredResult config))

/-- The generic method-call branch of `handle_execute`: `hasattr` raises a
`TypeError` on a non-string name; an absent method raises
`Exception(f"Method '{method}' not found on agent")`; a present method is
called with `params` as its single argument when `params` is truthy
(`if params:`) and with no arguments otherwise. -/
def execInvoke (ag : Agent) (method : Json) (params : Json) : List Ev × Except String Json :=
  match method with
  | .str m =>
      match ag.findOp m with
      | some cap =>
          let args := if params.truthy then [params] else []
          ([Ev.invoke "handle_execute" m args], cap args)
      | none => ([], .error ("Method \x27" ++ m ++ "\x27 not found on agent"))
  | other =>
      ([], .error ("attribute name must be string, not \x27" ++ other.pyTypeName ++ "\x27"))

/-- The body of `AgentWrapper.handle_execute` up to the result value:
extract `method` and `params`, special-case `configure` through
`configure_agent`, otherwise call the named method. -/
def execCore (s : WState) (msg : IPCMessage) : List Ev × Except String Json :=
  match extractField msg "method" with
  | .error e => ([], .error e)
  | .ok method =>
      match extractField msg "params" with
      | .error e => ([], .error e)
      | .ok params =>
          if method.isStr "configure" then
            configure_agent s.agent params
          else
            execInvoke s.agent method params

/-- `AgentWrapper.handle_execute`: a successful result is wrapped in a
`Response` envelope correlated to the request, a raised exception
propagates to `handle_message`. -/
def handle_execute (s : WState) (msg : IPCMessage) : List Ev × Except String IPCMessage :=
  let (evs, res) := execCore s msg
  (evs, res.map fun result => mkReply msg.id result)

/-- The body of `AgentWrapper.handle_trigger` up to the result value:
extract `trigger_type` and `data`, call the behavior object's
`handle_trigger` with both when present, otherwise synthesize the
`no_handler` result. -/
def triggerCore (s : WState) (msg : IPCMessage) : List Ev × Except String Json :=
  match extractField msg "trigger_type" with
  | .error e => ([], .error e)
  | .ok trigger_type =>
      match extractField msg "data" with
      | .error e => ([], .error e)
      | .ok data =>
          match s.agent.findOp "handle_trigger" with
          | some cap =>
              ([Ev.invoke "handle_trigger" "handle_trigger" [trigger_type, data]],
               cap [trigger_type, data])
          | none =>
              ([], .ok (.obj [("status", .str "no_handler"), ("trigger_type", trigger_type)]))

/-- `AgentWrapper.handle_trigger`, wrapping a successful result of
`triggerCore` in a correlated `Response` envelope. -/
def handle_trigger (s : WState) (msg : IPCMessage) : List Ev × Except String IPCMessage :=
  let (evs, res) := triggerCore s msg
  (evs, res.map fun result => mkReply msg.id result)

/-- `AgentWrapper.handle_stop`: clear `is_running`, best-effort invoke the
behavior object's `cleanup` when present (its result is ignored and a
raised exception is logged, never surfaced), and reply with the
`{"status": "stopped"}` Response. -/
def handle_stop (s : WState) (msg : IPCMessage) : WState × List Ev × IPCMessage :=
  let s' := { s with is_running := false }
  let evs :=
    match s.agent.findOp "cleanup" with
    | some _ => [Ev.invoke "handle_stop" "cleanup" []]
    | none => []
  (s', evs, mkReply msg.id (.obj [("status", .str "stopped")]))

/-- The base status record built by `handle_status`. -/
def baseStatus (s : WState) : List (String × Json) :=
  [("agent_id", s.agent_id),
   ("is_running", .bool s.is_running),
   ("script_path", s.agent_script_path),
   ("uptime", .num 0)]

/-- `AgentWrapper.handle_status`: build the base status record, merge in
the behavior object's `get_status` result when present and well-formed
(a raised exception, or a non-dict result that makes `dict.update` raise,
is logged and swallowed), and reply with a `Response`. Iterable-of-pairs
arguments to `dict.update` other than dicts are not modelled and count as
the raising case. -/
def handle_status (s : WState) (msg : IPCMessage) : List Ev × IPCMessage :=
  let (evs, status) :=
    match s.agent.findOp "get_status" with
    | some cap =>
        let evs := [Ev.invoke "handle_status" "get_status" []]
        match cap [] with
        | .ok (.obj kvs) => (evs, Json.dictUpdate (baseStatus s) kvs)
        | .ok _ => (evs, baseStatus s)
        | .error _ => (evs, baseStatus s)
    | none => ([], baseStatus s)
  (evs, mkReply msg.id (.obj status))

/-! ## The dispatcher (`handle_message`) -/

/-- The outcome of `AgentWrapper.handle_message`: the (possibly updated)
wrapper state, the single reply envelope it returns, a tag naming the
handler that produced the reply (`"error"` for replies built by the
`except` clause or the unknown-kind branch), and the capability
invocations performed along the way. -/
structure Handled where
  state : WState
  reply : IPCMessage
  tag : String
  evs : List Ev

/-- `AgentWrapper.handle_message`: route on `message_type` compared
against the four bare string tags; unknown kinds and any exception raised
by a handler become a correlated error response. Every path returns
exactly one reply (the `Optional` in the Python signature is never
`None`). -/
def handle_message (s : WState) (msg : IPCMessage) : Handled :=
  if msg.message_type.isStr "Execute" then
    match handle_execute s msg with
    | (evs, .ok r) => ⟨s, r, "handle_execute", evs⟩
    | (evs, .error e) => ⟨s, create_error_response msg.id e .null, "error", evs⟩
  else if msg.message_type.isStr "Trigger" then
    match handle_trigger s msg with
    | (evs, .ok r) => ⟨s, r, "handle_trigger", evs⟩
    | (evs, .error e) => ⟨s, create_error_response msg.id e .null, "error", evs⟩
  else if msg.message_type.isStr "Stop" then
    match handle_stop s msg with
    | (s', evs, r) => ⟨s', r, "handle_stop", evs⟩
  else if msg.message_type.isStr "Status" then
    match handle_status s msg with
    | (evs, r) => ⟨s, r, "handle_status", evs⟩
  else
    ⟨s, create_error_response msg.id
          ("Unknown message type: " ++ msg.message_type.pyRepr) .null,
      "error", []⟩

/-! ## The read loop of `AgentWrapper.run` -/

/-- One line read from stdin, after `json.loads`: a blank line (skipped by
`if not line: continue`), a line that is not valid JSON
(`json.JSONDecodeError`), or a parsed JSON value. -/
inductive InLine where
  | blank : InLine
  | badJson : InLine
  | json : Json → InLine

/-- Processing of one read line by the body of the `while` loop in
`AgentWrapper.run`: blank lines are skipped, invalid JSON is logged and
dropped (`except json.JSONDecodeError`), a `from_dict` failure is caught
by the outer `except Exception` and dropped, and a decoded message is
dispatched and its single reply written to stdout. -/
def stepLine (s : WState) : InLine → WState × List Ev
  | .blank => (s, [])
  | .badJson => (s, [])
  | .json j =>
      match IPCMessage.from_dict j with
      | .error _ => (s, [])
      | .ok msg =>
          let h := handle_message s msg
          (h.state, h.evs ++ [Ev.out h.tag h.reply])

/-- The read loop of `AgentWrapper.run` in isolation (no heartbeat task):
while `is_running`, read a line (end of the list is EndOfStream, which
breaks the loop) and process it. Returns the final wrapper state and the
concatenated event trace. -/
def runLoop (s : WState) : List InLine → WState × List Ev
  | [] => (s, [])
  | item :: rest =>
      if s.is_running then
        let (s', evs) := stepLine s item
        let (s'', evs') := runLoop s' rest
        (s'', evs ++ evs')
      else (s, [])

/-! ## The concurrent system: read loop plus heartbeat task -/

/-- The whole worker process: the wrapper state, the remaining stdin
lines, the accumulated event trace, and whether the read loop has
returned. -/
structure Sys where
  w : WState
  input : List InLine
  trace : List Ev
  mainDone : Bool

/-- A fresh system about to enter `run`'s while loop (trace empty, read
loop live). -/
def mkSys (w : WState) (input : List InLine) : Sys :=
  { w := w, input := input, trace := [], mainDone := false }

/-- A scheduling choice: one atomic step of the read loop, or one firing
of the heartbeat timer (carrying the wall-clock timestamp used for the
heartbeat id). Atomicity matches the Python: the heartbeat's
`if self.is_running: await self.send_heartbeat()` runs without a
suspension point between the check and the write, and every suspension
point inside the dispatch of a `Stop` line comes after `is_running` has
been cleared. -/
inductive Sched where
  | main : Sched
  | hb : String → Sched

/-- One interleaved step of the system. The read loop checks
`while self.is_running` before reading, breaks on EndOfStream, and
otherwise processes one line; the heartbeat task emits a `Heartbeat`
envelope only while `is_running` holds (`if self.is_running`) and is
silent once cancelled — `run` cancels it, with no suspension point in
between, as soon as its while loop exits (`mainDone`). -/
def sysStep (σ : Sys) : Sched → Sys
  | .main =>
      if σ.mainDone then σ
      else if σ.w.is_running then
        match σ.input with
        | [] => { σ with mainDone := true }
        | item :: rest =>
            let (w', evs) := stepLine σ.w item
            { w := w', input := rest, trace := σ.trace ++ evs, mainDone := σ.mainDone }
      else { σ with mainDone := true }
  | .hb now =>
      if σ.mainDone then σ
      else if σ.w.is_running then
        { σ with trace := σ.trace ++ [Ev.out "heartbeat" (heartbeatMessage now)] }
      else σ

/-- Run the system under an explicit schedule. -/
def runSched (σ : Sys) : List Sched → Sys
  | [] => σ
  | t :: ts => runSched (sysStep σ t) ts

/-! ## Trace observations -/

/-- Is this event a message written to stdout? -/
def Ev.isOut : Ev → Bool
  | .out _ _ => true
  | .invoke _ _ _ => false

/-- Is this event the `Response{status:"stopped"}` written by the `Stop`
branch of the dispatcher? -/
def Ev.isStopOut : Ev → Bool
  | .out src _ => src == "handle_stop"
  | .invoke _ _ _ => false

/-- Is this event the shutdown path's invocation of the behavior object's
`cleanup` (the call made by `handle_stop`)? -/
def Ev.isStopCleanup : Ev → Bool
  | .invoke caller name _ => caller == "handle_stop" && name == "cleanup"
  | .out _ _ => false

/-- Number of stdout messages in a trace. -/
def countOut (tr : List Ev) : Nat := (tr.filter Ev.isOut).length

/-- Number of `Stop` responses in a trace. -/
def countStopOut (tr : List Ev) : Nat := (tr.filter Ev.isStopOut).length

/-- Number of shutdown-path `cleanup` invocations in a trace. -/
def countCleanup (tr : List Ev) : Nat := (tr.filter Ev.isStopCleanup).length

/-- Does the reply envelope carry a `Response` or an `Error` kind? -/
def isReplyKind (j : Json) : Bool :=
  match j with
  | .obj [(k, _)] => k == "Response" || k == "Error"
  | _ => false

/-- Does the reply envelope carry a `Response` kind? -/
def isResponseKind (j : Json) : Bool :=
  match j with
  | .obj [(k, _)] => k == "Response"
  | _ => false

/-- Does the reply envelope carry an `Error` kind? -/
def isErrorKind (j : Json) : Bool :=
  match j with
  | .obj [(k, _)] => k == "Error"
  | _ => false

/-! ## Basic facts about the dispatcher -/

theorem handle_execute_ok (s : WState) (msg : IPCMessage) (evs : List Ev) (r : IPCMessage)
    (h : handle_execute s msg = (evs, .ok r)) :
    ∃ result, execCore s msg = (evs, .ok result) ∧ r = mkReply msg.id result := by
  unfold handle_execute at h
  rcases hc : execCore s msg with ⟨evs', res⟩
  rw [hc] at h
  cases res with
  | ok result =>
      simp only [Except.map, Prod.mk.injEq, Except.ok.injEq] at h
      exact ⟨result, by rw [h.1], h.2.symm⟩
  | error e =>
      simp only [Except.map, Prod.mk.injEq] at h
      exact absurd h.2 (by simp)

theorem handle_execute_evs (s : WState) (msg : IPCMessage) :
    (handle_execute s msg).1 = (execCore s msg).1 := by
  unfold handle_execute
  rcases hc : execCore s msg with ⟨evs, res⟩
  simp

theorem handle_trigger_ok (s : WState) (msg : IPCMessage) (evs : List Ev) (r : IPCMessage)
    (h : handle_trigger s msg = (evs, .ok r)) :
    ∃ result, triggerCore s msg = (evs, .ok result) ∧ r = mkReply msg.id result := by
  unfold handle_trigger at h
  rcases hc : triggerCore s msg with ⟨evs', res⟩
  rw [hc] at h
  cases res with
  | ok result =>
      simp only [Except.map, Prod.mk.injEq, Except.ok.injEq] at h
      exact ⟨result, by rw [h.1], h.2.symm⟩
  | error e =>
      simp only [Except.map, Prod.mk.injEq] at h
      exact absurd h.2 (by simp)

theorem handle_status_shape (s : WState) (msg : IPCMessage) :
    ∃ evs status, handle_status s msg = (evs, mkReply msg.id (.obj status)) := by
  unfold handle_status
  cases hF : s.agent.findOp "get_status" with
  | none => exact ⟨_, _, rfl⟩
  | some cap =>
      cases hC : cap [] with
      | error e => exact ⟨_, _, rfl⟩
      | ok j => cases j <;> exact ⟨_, _, rfl⟩

/-- An event that is neither a stdout write nor the shutdown path's
`cleanup` invocation. -/
def benign (e : Ev) : Prop := e.isOut = false ∧ e.isStopCleanup = false

theorem benign_invoke (c n : String) (a : List Json)
    (h : (c == "handle_stop") = false) : benign (.invoke c n a) :=
  ⟨rfl, by simp [Ev.isStopCleanup, h]⟩

theorem configure_agent_benign (ag : Agent) (cfg : Json) :
    ∀ e ∈ (configure_agent ag cfg).1, benign e := by
  unfold configure_agent
  rcases hF : ag.findOp "configure" with _ | cap <;> try dsimp only
  · rcases hS : ag.findOp "start" with _ | cap' <;> try dsimp only
    · intro e he; simp at he
    · rcases hC : cap' [] with e' | j <;> try dsimp only <;>
        (intro e he; simp at he; subst he; exact benign_invoke _ _ _ rfl)
  · rcases hC : cap [cfg] with e' | j <;> try dsimp only [Except.map]
    · intro e he; simp at he; subst he; exact benign_invoke _ _ _ rfl
    · rcases hS : ag.findOp "start" with _ | cap' <;> try dsimp only
      · intro e he; simp at he; subst he; exact benign_invoke _ _ _ rfl
      · rcases hC' : cap' [] with e' | j' <;> try dsimp only <;>
          (intro e he; simp at he;
           rcases he with rfl | rfl <;> exact benign_invoke _ _ _ rfl)

theorem execInvoke_benign (ag : Agent) (method params : Json) :
    ∀ e ∈ (execInvoke ag method params).1, benign e := by
  unfold execInvoke
  cases method <;> try dsimp only <;> try (intro e he; simp at he)
  case str m =>
    rcases hF : ag.findOp m with _ | cap <;> try dsimp only
    · intro e he; simp at he
    · intro e he; simp at he; subst he; exact benign_invoke _ _ _ rfl

theorem execCore_benign (s : WState) (msg : IPCMessage) :
    ∀ e ∈ (execCore s msg).1, benign e := by
  unfold execCore
  rcases hM : extractField msg "method" with e' | method <;> try dsimp only
  · intro e he; simp at he
  · rcases hP : extractField msg "params" with e' | params <;> try dsimp only
    · intro e he; simp at he
    · by_cases hC : method.isStr "configure"
      · simp only [hC, if_true]; exact configure_agent_benign s.agent params
      · simp only [hC, if_false]; exact execInvoke_benign s.agent method params

theorem triggerCore_benign (s : WState) (msg : IPCMessage) :
    ∀ e ∈ (triggerCore s msg).1, benign e := by
  unfold triggerCore
  rcases hT : extractField msg "trigger_type" with e' | tt <;> try dsimp only
  · intro e he; simp at he
  · rcases hD : extractField msg "data" with e' | d <;> try dsimp only
    · intro e he; simp at he
    · rcases hF : s.agent.findOp "handle_trigger" with _ | cap <;> try dsimp only
      · intro e he; simp at he
      · intro e he; simp at he; subst he; exact benign_invoke _ _ _ rfl

theorem handle_status_benign (s : WState) (msg : IPCMessage) :
    ∀ e ∈ (handle_status s msg).1, benign e := by
  unfold handle_status
  rcases hF : s.agent.findOp "get_status" with _ | cap <;> try dsimp only
  · intro e he; simp at he
  · rcases hC : cap [] with e' | j <;> try dsimp only
    · intro e he; simp at he; subst he; exact benign_invoke _ _ _ rfl
    · cases j <;> try dsimp only <;>
        (intro e he; simp at he; subst he; exact benign_invoke _ _ _ rfl)

theorem Agent.hasOp_eq_findOp_isSome (ag : Agent) (n : String) :
    ag.hasOp n = (ag.findOp n).isSome := rfl

/-- The events of `handle_stop` are exactly one shutdown `cleanup`
invocation when the capability is present, none otherwise. -/
theorem handle_stop_evs (s : WState) (msg : IPCMessage) :
    (handle_stop s msg).2.1 =
      if s.agent.hasOp "cleanup" then [Ev.invoke "handle_stop" "cleanup" []] else [] := by
  unfold handle_stop
  rcases hF : s.agent.findOp "cleanup" with _ | cap <;>
    simp [Agent.hasOp_eq_findOp_isSome, hF]

/-- `handle_stop` clears `is_running` and replies with the
`{"status": "stopped"}` Response to the request id, whatever the behavior
object's `cleanup` does. -/
theorem handle_stop_spec (s : WState) (msg : IPCMessage) :
    (handle_stop s msg).1 = { s with is_running := false } ∧
      (handle_stop s msg).2.2 = mkReply msg.id (.obj [("status", .str "stopped")]) := by
  unfold handle_stop
  exact ⟨rfl, rfl⟩

/-- Case description of the dispatcher: every branch except `Stop` leaves
the wrapper state untouched and performs only benign events; the `Stop`
branch clears `is_running` and performs exactly the shutdown `cleanup`
invocation (when the capability exists). -/
theorem handle_message_cases (s : WState) (msg : IPCMessage) :
    ((handle_message s msg).state = s ∧ (handle_message s msg).tag ≠ "handle_stop" ∧
      ∀ e ∈ (handle_message s msg).evs, benign e) ∨
    ((handle_message s msg).tag = "handle_stop" ∧
      (handle_message s msg).state = { s with is_running := false } ∧
      (handle_message s msg).evs =
        (if s.agent.hasOp "cleanup" then [Ev.invoke "handle_stop" "cleanup" []] else [])) := by
  unfold handle_message
  by_cases h1 : msg.message_type.isStr "Execute" = true
  · rw [if_pos h1]
    rcases hE : handle_execute s msg with ⟨evs, res⟩
    have hevs : evs = (execCore s msg).1 := by
      have := handle_execute_evs s msg
      rw [hE] at this
      exact this
    cases res <;>
      · dsimp only
        refine Or.inl ⟨rfl, by decide, ?_⟩
        intro e he
        exact execCore_benign s msg e (hevs ▸ he)
  · rw [if_neg h1]
    by_cases h2 : msg.message_type.isStr "Trigger" = true
    · rw [if_pos h2]
      rcases hT : handle_trigger s msg with ⟨evs, res⟩
      have hevs : evs = (triggerCore s msg).1 := by
        have : (handle_trigger s msg).1 = (triggerCore s msg).1 := by
          unfold handle_trigger
          rcases hc : triggerCore s msg with ⟨evs', res'⟩
          simp
        rw [hT] at this
        exact this
      cases res <;>
        · dsimp only
          refine Or.inl ⟨rfl, by decide, ?_⟩
          intro e he
          exact triggerCore_benign s msg e (hevs ▸ he)
    · rw [if_neg h2]
      by_cases h3 : msg.message_type.isStr "Stop" = true
      · rw [if_pos h3]
        rcases hS : handle_stop s msg with ⟨s', evs, r⟩
        have hevs := handle_stop_evs s msg
        have hspec := handle_stop_spec s msg
        rw [hS] at hevs hspec
        dsimp only
        exact Or.inr ⟨rfl, hspec.1, hevs⟩
      · rw [if_neg h3]
        by_cases h4 : msg.message_type.isStr "Status" = true
        · rw [if_pos h4]
          rcases hS : handle_status s msg with ⟨evs, r⟩
          have hevs : evs = (handle_status s msg).1 := by rw [hS]
          dsimp only
          refine Or.inl ⟨rfl, by decide, ?_⟩
          intro e he
          exact handle_status_benign s msg e (hevs ▸ he)
        · rw [if_neg h4]
          dsimp only
          exact Or.inl ⟨rfl, by decide, by intro e he; simp at he⟩

/-- Every reply the dispatcher produces is correlated: its envelope `id`
is the request's `id`. -/
theorem handle_message_reply_id (s : WState) (msg : IPCMessage) :
    (handle_message s msg).reply.id = msg.id := by
  unfold handle_message
  by_cases h1 : msg.message_type.isStr "Execute" = true
  · rw [if_pos h1]
    rcases hE : handle_execute s msg with ⟨evs, res⟩
    cases res with
    | ok r =>
        dsimp only
        obtain ⟨result, _, hr⟩ := handle_execute_ok s msg evs r hE
        rw [hr]; rfl
    | error e => dsimp only; rfl
  · rw [if_neg h1]
    by_cases h2 : msg.message_type.isStr "Trigger" = true
    · rw [if_pos h2]
      rcases hT : handle_trigger s msg with ⟨evs, res⟩
      cases res with
      | ok r =>
          dsimp only
          obtain ⟨result, _, hr⟩ := handle_trigger_ok s msg evs r hT
          rw [hr]; rfl
      | error e => dsimp only; rfl
    · rw [if_neg h2]
      by_cases h3 : msg.message_type.isStr "Stop" = true
      · rw [if_pos h3]
        rcases hS : handle_stop s msg with ⟨s', evs, r⟩
        have hspec := handle_stop_spec s msg
        rw [hS] at hspec
        dsimp only
        rw [show r = mkReply msg.id (.obj [("status", .str "stopped")]) from hspec.2]; rfl
      · rw [if_neg h3]
        by_cases h4 : msg.message_type.isStr "Status" = true
        · rw [if_pos h4]
          obtain ⟨evs0, status, hshape⟩ := handle_status_shape s msg
          rw [hshape]; rfl
        · rw [if_neg h4]
          rfl

/-- Every reply the dispatcher produces carries either the `Response` or
the `Error` object-tagged kind. -/
theorem handle_message_reply_kind (s : WState) (msg : IPCMessage) :
    isReplyKind (handle_message s msg).reply.message_type = true := by
  unfold handle_message
  by_cases h1 : msg.message_type.isStr "Execute" = true
  · rw [if_pos h1]
    rcases hE : handle_execute s msg with ⟨evs, res⟩
    cases res with
    | ok r =>
        dsimp only
        obtain ⟨result, _, hr⟩ := handle_execute_ok s msg evs r hE
        rw [hr]; rfl
    | error e => dsimp only; rfl
  · rw [if_neg h1]
    by_cases h2 : msg.message_type.isStr "Trigger" = true
    · rw [if_pos h2]
      rcases hT : handle_trigger s msg with ⟨evs, res⟩
      cases res with
      | ok r =>
          dsimp only
          obtain ⟨result, _, hr⟩ := handle_trigger_ok s msg evs r hT
          rw [hr]; rfl
      | error e => dsimp only; rfl
    · rw [if_neg h2]
      by_cases h3 : msg.message_type.isStr "Stop" = true
      · rw [if_pos h3]
        rcases hS : handle_stop s msg with ⟨s', evs, r⟩
        have hspec := handle_stop_spec s msg
        rw [hS] at hspec
        dsimp only
        rw [show r = mkReply msg.id (.obj [("status", .str "stopped")]) from hspec.2]; rfl
      · rw [if_neg h3]
        by_cases h4 : msg.message_type.isStr "Status" = true
        · rw [if_pos h4]
          obtain ⟨evs0, status, hshape⟩ := handle_status_shape s msg
          rw [hshape]; rfl
        · rw [if_neg h4]
          rfl

/-- The dispatcher itself writes nothing to stdout: all its events are
capability invocations (the single reply is written by the run loop). -/
theorem handle_message_evs_no_out (s : WState) (msg : IPCMessage) :
    ∀ e ∈ (handle_message s msg).evs, e.isOut = false := by
  rcases handle_message_cases s msg with ⟨_, _, hb⟩ | ⟨_, _, hevs⟩
  · intro e he; exact (hb e he).1
  · intro e he
    rw [hevs] at he
    by_cases hc : s.agent.hasOp "cleanup" = true
    · rw [if_pos hc] at he; simp at he; subst he; rfl
    · rw [if_neg hc] at he; simp at he

/-- Counting version of `benign`: a list of benign events contains no
shutdown `cleanup` invocation. -/
theorem countCleanup_eq_zero (l : List Ev) (h : ∀ e ∈ l, benign e) :
    countCleanup l = 0 := by
  unfold countCleanup
  rw [List.filter_eq_nil.mpr]
  · rfl
  · intro e he
    simp [(h e he).2]

/-- A list of benign events contains no `Stop` response either. -/
theorem countStopOut_eq_zero (l : List Ev) (h : ∀ e ∈ l, benign e) :
    countStopOut l = 0 := by
  unfold countStopOut
  rw [List.filter_eq_nil.mpr]
  · rfl
  · intro e he
    have := (h e he).1
    cases e with
    | invoke c n a => simp [Ev.isStopOut]
    | out src m => simp [Ev.isOut] at this

/-- A read loop that is no longer `is_running` reads nothing and emits
nothing. -/
theorem runLoop_not_running (s : WState) (l : List InLine) (h : s.is_running = false) :
    runLoop s l = (s, []) := by
  cases l with
  | nil => rfl
  | cons item rest => simp [runLoop, h]

/-! ## Claim C5 -/

/-- C5: for every successfully decoded request envelope, of any kind,
processing the line writes exactly one reply to the output — the
dispatcher's reply, which is always a `Response` or an `Error` envelope;
no decoded request yields zero replies or more than one. -/
theorem C5_exactly_one_reply (s : WState) (j : Json) (msg : IPCMessage)
    (h : IPCMessage.from_dict j = .ok msg) :
    (stepLine s (.json j)).2.filter Ev.isOut
        = [Ev.out (handle_message s msg).tag (handle_message s msg).reply] ∧
    isReplyKind (handle_message s msg).reply.message_type = true := by
  constructor
  · dsimp only [stepLine]
    rw [h]
    dsimp only
    rw [List.filter_append]
    rw [List.filter_eq_nil.mpr (by intro e he; simp [handle_message_evs_no_out s msg e he])]
    simp [Ev.isOut]
  · exact handle_message_reply_kind s msg

def C5_agent : Agent := ⟨[("greet", fun _ => .ok (.str "hi"))]⟩

def C5_state : WState := ⟨C5_agent, .str "a1", .str "/tmp/agent.py", true⟩

def C5_line : Json :=
  .obj [("id", .str "41"), ("message_type", .str "Execute"),
        ("payload", .obj [("method", .str "greet"), ("params", .null)])]

def C5_msg : IPCMessage :=
  { id := .str "41", message_type := .str "Execute",
    payload := .obj [("method", .str "greet"), ("params", .null)], timestamp := none }

theorem C5_exactly_one_reply_witness :
    (stepLine C5_state (.json C5_line)).2.filter Ev.isOut
        = [Ev.out (handle_message C5_state C5_msg).tag (handle_message C5_state C5_msg).reply] ∧
    isReplyKind (handle_message C5_state C5_msg).reply.message_type = true :=
  C5_exactly_one_reply C5_state C5_line C5_msg rfl

/-! ## Claim C6 -/

/-- C6: a line that is not a well-formed envelope — not valid JSON, or a
JSON value on which `from_dict` raises (missing `id`/`message_type`, or
not an object) — produces no output envelope and does not stop the loop:
the run over the malformed line followed by any remaining input is the
same as the run over the remaining input alone, so a subsequent
well-formed line is processed exactly as it would have been. -/
theorem C6_malformed_line_dropped (s : WState) (rest : List InLine) :
    runLoop s (.badJson :: rest) = runLoop s rest ∧
    (∀ j e, IPCMessage.from_dict j = .error e →
      runLoop s (.json j :: rest) = runLoop s rest) := by
  constructor
  · by_cases h : s.is_running = true
    · rw [runLoop, if_pos h]
      dsimp only [stepLine]
      rcases hR : runLoop s rest with ⟨s'', evs'⟩
      simp
    · rw [runLoop_not_running s _ (by simpa using h),
          runLoop_not_running s rest (by simpa using h)]
  · intro j e hj
    by_cases h : s.is_running = true
    · rw [runLoop, if_pos h]
      dsimp only [stepLine]
      rw [hj]
      dsimp only
      rcases hR : runLoop s rest with ⟨s'', evs'⟩
      simp
    · rw [runLoop_not_running s _ (by simpa using h),
          runLoop_not_running s rest (by simpa using h)]

def C6_agent : Agent := ⟨[("greet", fun _ => .ok (.str "hi"))]⟩

def C6_state : WState := ⟨C6_agent, .str "a6", .str "/tmp/agent.py", true⟩

/-- A JSON object missing the required `id` key. -/
def C6_bad : Json := .obj [("message_type", .str "Status")]

/-- A subsequent well-formed line. -/
def C6_good : InLine :=
  .json (.obj [("id", .str "8"), ("message_type", .str "Status")])

theorem C6_malformed_line_dropped_witness :
    IPCMessage.from_dict C6_bad = .error "KeyError: \x27id\x27" ∧
    runLoop C6_state [.json C6_bad, C6_good] = runLoop C6_state [C6_good] :=
  ⟨rfl, (C6_malformed_line_dropped C6_state [C6_good]).2 C6_bad _ rfl⟩

/-! ## Claim C10 -/

/-- When `get_status` is present but raises, `handle_status` swallows the
failure and replies with the base status record. -/
theorem handle_status_error (s : WState) (msg : IPCMessage) (cap : Capability) (err : String)
    (hcap : s.agent.findOp "get_status" = some cap) (herr : cap [] = .error err) :
    handle_status s msg =
      ([Ev.invoke "handle_status" "get_status" []], mkReply msg.id (.obj (baseStatus s))) := by
  unfold handle_status
  rw [hcap]
  dsimp only
  rw [herr]

/-- C10: if the behavior object's `get_status` raises while a `Status`
request is handled, the request still receives a `Response` (not an
`Error`) carrying the base status record (`agent_id`, `is_running`,
`script_path`, `uptime`); the failure is never surfaced to the host. -/
theorem C10_status_failure_swallowed (s : WState) (msg : IPCMessage)
    (cap : Capability) (err : String)
    (hmt : msg.message_type = .str "Status")
    (hcap : s.agent.findOp "get_status" = some cap)
    (herr : cap [] = .error err) :
    (handle_message s msg).reply = mkReply msg.id (.obj (baseStatus s)) ∧
    isResponseKind (handle_message s msg).reply.message_type = true ∧
    (handle_message s msg).reply.payload = .obj (baseStatus s) := by
  unfold handle_message
  rw [if_neg (by rw [hmt]; simp [Json.isStr])]
  rw [if_neg (by rw [hmt]; simp [Json.isStr])]
  rw [if_neg (by rw [hmt]; simp [Json.isStr])]
  rw [if_pos (by rw [hmt]; rfl)]
  rw [handle_status_error s msg cap err hcap herr]
  exact ⟨rfl, rfl, rfl⟩

def C10_agent : Agent :=
  ⟨[("get_status", fun _ => .error "RuntimeError: status backend offline")]⟩

def C10_state : WState := ⟨C10_agent, .str "a10", .str "/tmp/agent.py", true⟩

def C10_msg : IPCMessage :=
  { id := .str "3", message_type := .str "Status", payload := .null, timestamp := none }

theorem C10_status_failure_swallowed_witness :
    (handle_message C10_state C10_msg).reply = mkReply (.str "3") (.obj (baseStatus C10_state)) ∧
    isResponseKind (handle_message C10_state C10_msg).reply.message_type = true ∧
    (handle_message C10_state C10_msg).reply.payload = .obj (baseStatus C10_state) :=
  C10_status_failure_swallowed C10_state C10_msg _ _ rfl rfl rfl

/-! ## Claim C9 -/

/-- If one payload field extraction succeeds, any other succeeds too (the
only failure mode is a non-dict source, which does not depend on the
key). -/
theorem extractField_ok_any (msg : IPCMessage) (k kx : String) (v : Json)
    (h : extractField msg k = .ok v) : ∃ w, extractField msg kx = .ok w := by
  obtain ⟨idv, mt, payload, ts⟩ := msg
  unfold extractField at h ⊢
  dsimp only at h ⊢
  cases mt <;> try exact ⟨_, rfl⟩
  all_goals
    unfold Json.pyGet at h ⊢
    cases payload <;> first
      | exact ⟨_, rfl⟩
      | simp at h

/-- The generic (non-`configure`) Execute path: a present method is
invoked with the truthiness-gated argument list. -/
theorem execCore_generic (s : WState) (msg : IPCMessage) (m : String)
    (params : Json) (cap : Capability)
    (hm : extractField msg "method" = .ok (.str m))
    (hp : extractField msg "params" = .ok params)
    (hne : m ≠ "configure")
    (hcap : s.agent.findOp m = some cap) :
    execCore s msg =
      ([Ev.invoke "handle_execute" m (if params.truthy then [params] else [])],
       cap (if params.truthy then [params] else [])) := by
  unfold execCore
  rw [hm, hp]
  dsimp only
  rw [if_neg (by simp [Json.isStr, hne])]
  unfold execInvoke
  dsimp only
  rw [hcap]

/-- The generic Execute path for an absent method: the
`Method '<name>' not found on agent` exception. -/
theorem execCore_not_found (s : WState) (msg : IPCMessage) (m : String)
    (params : Json)
    (hm : extractField msg "method" = .ok (.str m))
    (hp : extractField msg "params" = .ok params)
    (hne : m ≠ "configure")
    (habs : s.agent.findOp m = none) :
    execCore s msg = ([], .error ("Method \x27" ++ m ++ "\x27 not found on agent")) := by
  unfold execCore
  rw [hm, hp]
  dsimp only
  rw [if_neg (by simp [Json.isStr, hne])]
  unfold execInvoke
  dsimp only
  rw [habs]

/-- C9 (amended): for a bare-string-tagged Execute request naming a string
operation other than the special-cased `configure` that is absent on the
behavior object, the reply is an `Error` envelope whose id is the request
id and whose message contains the operation name. -/
theorem C9_absent_op_error (s : WState) (msg : IPCMessage) (m : String)
    (hmt : msg.message_type = .str "Execute")
    (hm : extractField msg "method" = .ok (.str m))
    (hne : m ≠ "configure")
    (habs : s.agent.findOp m = none) :
    (handle_message s msg).reply =
      create_error_response msg.id ("Method \x27" ++ m ++ "\x27 not found on agent") .null ∧
    (handle_message s msg).reply.id = msg.id ∧
    isErrorKind (handle_message s msg).reply.message_type = true ∧
    ∃ pre suf, "Method \x27" ++ m ++ "\x27 not found on agent" = pre ++ m ++ suf := by
  obtain ⟨params, hp⟩ := extractField_ok_any msg "method" "params" _ hm
  have hcore := execCore_not_found s msg m params hm hp hne habs
  have hhe : handle_execute s msg =
      ([], .error ("Method \x27" ++ m ++ "\x27 not found on agent")) := by
    unfold handle_execute
    rw [hcore]
    dsimp only [Except.map]
  unfold handle_message
  rw [if_pos (by rw [hmt]; rfl)]
  rw [hhe]
  exact ⟨rfl, rfl, rfl, "Method \x27", "\x27 not found on agent", rfl⟩

def C9_agent : Agent := ⟨[("greet", fun _ => .ok (.str "hi"))]⟩

def C9_state : WState := ⟨C9_agent, .str "a9", .str "/tmp/agent.py", true⟩

def C9_msg : IPCMessage :=
  { id := .str "12", message_type := .str "Execute",
    payload := .obj [("method", .str "fetch_data"), ("params", .null)], timestamp := none }

theorem C9_absent_op_error_witness :
    (handle_message C9_state C9_msg).reply =
      create_error_response (.str "12")
        ("Method \x27fetch_data\x27 not found on agent") .null ∧
    (handle_message C9_state C9_msg).reply.id = C9_msg.id ∧
    isErrorKind (handle_message C9_state C9_msg).reply.message_type = true ∧
    ∃ pre suf, "Method \x27fetch_data\x27 not found on agent" = pre ++ "fetch_data" ++ suf :=
  C9_absent_op_error C9_state C9_msg "fetch_data" rfl rfl (by simp) rfl

/-- C9 counterexample: the operation name `configure` is absent on this
behavior object, yet the Execute request naming it is answered with a
successful `Response` (the configure path silently skips a missing
`configure` capability), not with an `Error` mentioning the name. -/
def C9_cx_agent : Agent := ⟨[]⟩

def C9_cx_state : WState := ⟨C9_cx_agent, .str "a9", .str "/tmp/agent.py", true⟩

def C9_cx_msg : IPCMessage :=
  { id := .str "13", message_type := .str "Execute",
    payload := .obj [("method", .str "configure"), ("params", .null)], timestamp := none }

theorem C9_counterexample :
    C9_cx_state.agent.hasOp "configure" = false ∧
    (handle_message C9_cx_state C9_cx_msg).reply =
      mkReply (.str "13") (configuredResult .null) ∧
    isErrorKind (handle_message C9_cx_state C9_cx_msg).reply.message_type = false ∧
    isResponseKind (handle_message C9_cx_state C9_cx_msg).reply.message_type = true :=
  ⟨rfl, rfl, rfl, rfl⟩

/-! ## Claim C3 -/

/-- On the Execute branch the dispatcher's recorded events are exactly
those of the execute body, whether the call succeeds or raises. -/
theorem handle_message_execute_evs (s : WState) (msg : IPCMessage)
    (hmt : msg.message_type.isStr "Execute" = true) :
    (handle_message s msg).evs = (execCore s msg).1 := by
  unfold handle_message
  rw [if_pos hmt]
  rcases hE : handle_execute s msg with ⟨evs, res⟩
  have hevs : evs = (execCore s msg).1 := by
    have := handle_execute_evs s msg
    rw [hE] at this
    exact this
  cases res <;> exact hevs

/-- A present `configure` capability is always invoked first, and with
the config value as its one argument — whatever that value is. -/
theorem configure_agent_evs_head (ag : Agent) (cfg : Json) (cap : Capability)
    (hcap : ag.findOp "configure" = some cap) :
    ∃ rest, (configure_agent ag cfg).1 =
      Ev.invoke "configure_agent" "configure" [cfg] :: rest := by
  unfold configure_agent
  rw [hcap]
  dsimp only
  rcases hC : cap [cfg] with e | j <;> dsimp only [Except.map]
  · exact ⟨[], rfl⟩
  · rcases hS : ag.findOp "start" with _ | capS <;> dsimp only
    · exact ⟨[], rfl⟩
    · rcases hCS : capS [] with e2 | j2 <;> dsimp only
      · exact ⟨[Ev.invoke "configure_agent" "start" []], rfl⟩
      · exact ⟨[Ev.invoke "configure_agent" "start" []], rfl⟩

/-- C3 (amended): an Execute request whose operation exists on the
behavior object invokes it with the args value as single argument when
args is truthy, and with no arguments when args is falsy — in particular
an empty-object args, though non-null, produces a zero-argument call. The
special-cased `configure` operation is instead always invoked with the
args value. -/
theorem C3_args_passing :
    (∀ (s : WState) (msg : IPCMessage) (m : String) (params : Json) (cap : Capability),
       msg.message_type = .str "Execute" →
       extractField msg "method" = .ok (.str m) →
       extractField msg "params" = .ok params →
       m ≠ "configure" →
       s.agent.findOp m = some cap →
       (handle_message s msg).evs =
         [Ev.invoke "handle_execute" m (if params.truthy then [params] else [])]) ∧
    (∀ (s : WState) (msg : IPCMessage) (params : Json) (cap : Capability),
       msg.message_type = .str "Execute" →
       extractField msg "method" = .ok (.str "configure") →
       extractField msg "params" = .ok params →
       s.agent.findOp "configure" = some cap →
       ∃ rest, (handle_message s msg).evs =
         Ev.invoke "configure_agent" "configure" [params] :: rest) := by
  constructor
  · intro s msg m params cap hmt hm hp hne hcap
    rw [handle_message_execute_evs s msg (by rw [hmt]; rfl)]
    rw [execCore_generic s msg m params cap hm hp hne hcap]
  · intro s msg params cap hmt hm hp hcap
    rw [handle_message_execute_evs s msg (by rw [hmt]; rfl)]
    have hcfg : execCore s msg = configure_agent s.agent params := by
      unfold execCore
      rw [hm, hp]
      dsimp only
      rw [if_pos (show (Json.str "configure").isStr "configure" = true from rfl)]
    rw [hcfg]
    exact configure_agent_evs_head s.agent params cap hcap

def C3_agent : Agent := ⟨[("refresh", fun args => .ok (.num args.length))]⟩

def C3_state : WState := ⟨C3_agent, .str "a3", .str "/tmp/agent.py", true⟩

/-- An Execute request whose `params` is the empty object — non-null. -/
def C3_msg : IPCMessage :=
  { id := .str "21", message_type := .str "Execute",
    payload := .obj [("method", .str "refresh"), ("params", .obj [])], timestamp := none }

/-- C3 counterexample: `params` is the empty object `{}` — non-null — yet
the capability is invoked with no arguments (`if params:` tests Python
truthiness, and `{}` is falsy), where the claim requires invocation with
the empty object as argument. -/
theorem C3_counterexample :
    C3_msg.payload = .obj [("method", .str "refresh"), ("params", .obj [])] ∧
    (handle_message C3_state C3_msg).evs = [Ev.invoke "handle_execute" "refresh" []] ∧
    (handle_message C3_state C3_msg).reply.payload = .num 0 ∧
    Json.obj [] ≠ Json.null :=
  ⟨rfl, rfl, rfl, fun h => Json.noConfusion h⟩

def C3_w_agent : Agent :=
  ⟨[("refresh", fun args => .ok (.num args.length)),
    ("configure", fun args => .ok (.num args.length))]⟩

def C3_w_state : WState := ⟨C3_w_agent, .str "a3", .str "/tmp/agent.py", true⟩

def C3_w_msg1 : IPCMessage :=
  { id := .str "22", message_type := .str "Execute",
    payload := .obj [("method", .str "refresh"), ("params", .obj [("n", .num 1)])],
    timestamp := none }

def C3_w_msg2 : IPCMessage :=
  { id := .str "23", message_type := .str "Execute",
    payload := .obj [("method", .str "configure"), ("params", .null)], timestamp := none }

theorem C3_args_passing_witness :
    (handle_message C3_w_state C3_w_msg1).evs =
      [Ev.invoke "handle_execute" "refresh" [.obj [("n", .num 1)]]] ∧
    ∃ rest, (handle_message C3_w_state C3_w_msg2).evs =
      Ev.invoke "configure_agent" "configure" [.null] :: rest :=
  ⟨C3_args_passing.1 C3_w_state C3_w_msg1 "refresh" (.obj [("n", .num 1)]) _
      rfl rfl rfl (by simp) rfl,
   C3_args_passing.2 C3_w_state C3_w_msg2 .null _ rfl rfl rfl rfl⟩

/-! ## Claim C7 -/

/-- Did an `Except` computation complete without raising? -/
def exceptOk : Except String Json → Bool
  | .ok _ => true
  | .error _ => false

/-- The configure step of `configure_agent` completed without raising:
either `configure` is absent (nothing is attempted) or its invocation on
the config value returned normally. -/
def cfgStepOk (ag : Agent) (cfg : Json) : Bool :=
  match ag.findOp "configure" with
  | some cap => exceptOk (cap [cfg])
  | none => true

/-- Is this event the `configure_agent` path's invocation of `configure`? -/
def isCfgInv : Ev → Bool
  | .invoke c n _ => c == "configure_agent" && n == "configure"
  | .out _ _ => false

/-- Is this event the `configure_agent` path's invocation of `start`? -/
def isStartInv : Ev → Bool
  | .invoke c n _ => c == "configure_agent" && n == "start"
  | .out _ _ => false

/-- Every `start` invocation in the trace occurs strictly after every
`configure` invocation. -/
def startAfterCfg (evs : List Ev) : Prop :=
  ∀ i j (hi : i < evs.length) (hj : j < evs.length),
    isStartInv (evs.get ⟨i, hi⟩) = true → isCfgInv (evs.get ⟨j, hj⟩) = true → j < i

theorem startAfterCfg_nil : startAfterCfg [] := by
  intro i j hi hj h1 h2
  simp at hi

theorem startAfterCfg_single (a : Ev)
    (h : isStartInv a = false ∨ isCfgInv a = false) : startAfterCfg [a] := by
  intro i j hi hj h1 h2
  simp at hi hj
  subst hi; subst hj
  simp at h1 h2
  rcases h with h | h
  · rw [h1] at h; exact Bool.noConfusion h
  · rw [h2] at h; exact Bool.noConfusion h

theorem startAfterCfg_pair (a b : Ev)
    (ha : isStartInv a = false) (hb : isCfgInv b = false) : startAfterCfg [a, b] := by
  intro i j hi hj h1 h2
  simp at hi hj
  have hi2 : i = 0 ∨ i = 1 := by omega
  have hj2 : j = 0 ∨ j = 1 := by omega
  rcases hi2 with rfl | rfl
  · rw [show ([a, b].get ⟨0, by simp⟩) = a from rfl] at h1
    rw [h1] at ha; exact Bool.noConfusion ha
  · rcases hj2 with rfl | rfl
    · omega
    · rw [show ([a, b].get ⟨1, by simp⟩) = b from rfl] at h2
      rw [h2] at hb; exact Bool.noConfusion hb

/-- `configure_agent` invokes `start` exactly when it is present and the
configure step completed without raising, and every `start` invocation
comes strictly after every `configure` invocation. -/
theorem configure_agent_start_spec (ag : Agent) (cfg : Json) :
    ((∃ e ∈ (configure_agent ag cfg).1, isStartInv e = true) ↔
      (ag.hasOp "start" = true ∧ cfgStepOk ag cfg = true)) ∧
    startAfterCfg (configure_agent ag cfg).1 := by
  unfold configure_agent cfgStepOk
  rcases hF : ag.findOp "configure" with _ | cap <;> dsimp only
  · rcases hS : ag.findOp "start" with _ | capS <;> dsimp only
    · refine ⟨?_, startAfterCfg_nil⟩
      simp [Agent.hasOp_eq_findOp_isSome, hS]
    · rcases hCS : capS [] with e2 | j2 <;> dsimp only <;>
        refine ⟨?_, startAfterCfg_single _ (Or.inr rfl)⟩ <;>
        · constructor
          · intro _
            exact ⟨by rw [Agent.hasOp_eq_findOp_isSome, hS]; rfl, rfl⟩
          · intro _
            exact ⟨Ev.invoke "configure_agent" "start" [], by simp, rfl⟩
  · rcases hC : cap [cfg] with e1 | j1 <;> dsimp only [Except.map]
    · refine ⟨?_, startAfterCfg_single _ (Or.inl rfl)⟩
      constructor
      · intro ⟨e, he, hse⟩
        simp at he
        rw [he] at hse
        exact Bool.noConfusion hse
      · intro ⟨h1, h2⟩
        exact Bool.noConfusion h2
    · rcases hS : ag.findOp "start" with _ | capS <;> dsimp only
      · refine ⟨?_, startAfterCfg_single _ (Or.inl rfl)⟩
        constructor
        · intro ⟨e, he, hse⟩
          simp at he
          rw [he] at hse
          exact Bool.noConfusion hse
        · intro ⟨h1, h2⟩
          rw [Agent.hasOp_eq_findOp_isSome, hS] at h1
          exact Bool.noConfusion h1
      · rcases hCS : capS [] with e2 | j2 <;> dsimp only <;>
          refine ⟨?_, startAfterCfg_pair _ _ rfl rfl⟩ <;>
          · constructor
            · intro _
              exact ⟨by rw [Agent.hasOp_eq_findOp_isSome, hS]; rfl, rfl⟩
            · intro _
              exact ⟨Ev.invoke "configure_agent" "start" [], by simp, rfl⟩

/-- An Execute request naming `configure` runs `configure_agent` on the
extracted params. -/
theorem execCore_configure (s : WState) (msg : IPCMessage) (params : Json)
    (hm : extractField msg "method" = .ok (.str "configure"))
    (hp : extractField msg "params" = .ok params) :
    execCore s msg = configure_agent s.agent params := by
  unfold execCore
  rw [hm, hp]
  dsimp only
  rw [if_pos (show (Json.str "configure").isStr "configure" = true from rfl)]

/-- C7: for every Execute request naming `configure`, the behavior
object's `start` capability is invoked exactly when it is present and the
configure step completed without raising, and every `start` invocation in
the handling trace comes strictly after every `configure` invocation —
never before, and not at all if `configure` raises. -/
theorem C7_configure_then_start (s : WState) (msg : IPCMessage) (params : Json)
    (hmt : msg.message_type = .str "Execute")
    (hm : extractField msg "method" = .ok (.str "configure"))
    (hp : extractField msg "params" = .ok params) :
    ((∃ e ∈ (handle_message s msg).evs, isStartInv e = true) ↔
      (s.agent.hasOp "start" = true ∧ cfgStepOk s.agent params = true)) ∧
    startAfterCfg (handle_message s msg).evs := by
  have hevs : (handle_message s msg).evs = (configure_agent s.agent params).1 := by
    rw [handle_message_execute_evs s msg (by rw [hmt]; rfl),
        execCore_configure s msg params hm hp]
  rw [hevs]
  exact configure_agent_start_spec s.agent params

def C7_agent : Agent :=
  ⟨[("configure", fun _ => .ok .null), ("start", fun _ => .ok .null)]⟩

def C7_state : WState := ⟨C7_agent, .str "a7", .str "/tmp/agent.py", true⟩

def C7_msg : IPCMessage :=
  { id := .str "31", message_type := .str "Execute",
    payload := .obj [("method", .str "configure"),
                     ("params", .obj [("mode", .str "full")])],
    timestamp := none }

theorem C7_configure_then_start_witness :
    ((∃ e ∈ (handle_message C7_state C7_msg).evs, isStartInv e = true) ↔
      (C7_state.agent.hasOp "start" = true ∧
        cfgStepOk C7_state.agent (.obj [("mode", .str "full")]) = true)) ∧
    startAfterCfg (handle_message C7_state C7_msg).evs :=
  C7_configure_then_start C7_state C7_msg (.obj [("mode", .str "full")]) rfl rfl rfl

/-! ## Claim C4 -/

/-- C4 (amended): every reply the dispatcher produces — `Response` or
`Error` — carries the id of the request that caused it; `Heartbeat` and
`Event` envelopes carry a freshly generated id of the form
`heartbeat_<timestamp>` / `event_<timestamp>`, which differs from every
request id that does not itself begin with that reserved prefix. -/
theorem C4_id_correlation :
    (∀ (s : WState) (msg : IPCMessage), (handle_message s msg).reply.id = msg.id) ∧
    (∀ (now rid : String), (∀ t, rid ≠ "heartbeat_" ++ t) →
      (heartbeatMessage now).id ≠ .str rid) ∧
    (∀ (now et : String) (d : Json) (rid : String), (∀ t, rid ≠ "event_" ++ t) →
      (eventMessage now et d).id ≠ .str rid) := by
  refine ⟨handle_message_reply_id, ?_, ?_⟩
  · intro now rid h heq
    dsimp only [heartbeatMessage] at heq
    injection heq with h2
    exact h now h2.symm
  · intro now et d rid h heq
    dsimp only [eventMessage] at heq
    injection heq with h2
    exact h now h2.symm

def C4_agent : Agent := ⟨[]⟩

def C4_state : WState := ⟨C4_agent, .str "a4", .str "/tmp/agent.py", true⟩

def C4_msg : IPCMessage :=
  { id := .str "41", message_type := .str "Status", payload := .null, timestamp := none }

theorem C4_id_correlation_witness :
    (handle_message C4_state C4_msg).reply.id = C4_msg.id ∧
    (heartbeatMessage "1.5").id ≠ .str "41" ∧
    (eventMessage "1.5" "tick" .null).id ≠ .str "41" := by
  refine ⟨C4_id_correlation.1 C4_state C4_msg,
          C4_id_correlation.2.1 "1.5" "41" ?_,
          C4_id_correlation.2.2 "1.5" "tick" .null "41" ?_⟩
  · intro t h
    have hl := congrArg String.length h
    rw [String.length_append] at hl
    rw [show ("41" : String).length = 2 from rfl,
        show ("heartbeat_" : String).length = 10 from rfl] at hl
    omega
  · intro t h
    have hl := congrArg String.length h
    rw [String.length_append] at hl
    rw [show ("41" : String).length = 2 from rfl,
        show ("event_" : String).length = 6 from rfl] at hl
    omega

/-- C4 counterexample: a heartbeat id is just `heartbeat_<timestamp>`, so
a request whose id happens to be such a string collides with it — the
generated id is not guaranteed to differ from every request id. The
request is a well-formed `Status` request the dispatcher answers. -/
def C4_cx_request : IPCMessage :=
  { id := .str "heartbeat_100.25", message_type := .str "Status",
    payload := .null, timestamp := none }

theorem C4_counterexample :
    (heartbeatMessage "100.25").id = C4_cx_request.id ∧
    C4_cx_request.message_type = .str "Status" :=
  ⟨rfl, rfl⟩

/-! ## Claim C1 -/

/-- The behavior object of the spec's scenario: it can answer
`get_status`, so a routed Execute of `get_status` would succeed. -/
def C1_agent : Agent :=
  ⟨[("get_status", fun _ => .ok (.obj [("state", .str "idle")]))]⟩

def C1_state : WState := ⟨C1_agent, .str "a1", .str "/tmp/agent.py", true⟩

/-- The scenario line
`{"id":"1","message_type":{"Execute":{}},"payload":{"method":"get_status","params":null}}`. -/
def C1_line : Json :=
  .obj [("id", .str "1"),
        ("message_type", .obj [("Execute", .obj [])]),
        ("payload", .obj [("method", .str "get_status"), ("params", .null)])]

def C1_msg : IPCMessage :=
  { id := .str "1",
    message_type := .obj [("Execute", .obj [])],
    payload := .obj [("method", .str "get_status"), ("params", .null)],
    timestamp := none }

/-- C1: the scenario message decodes, but the dispatcher compares
`message_type` against bare strings only, so the object-tagged
`{"Execute": {}}` kind falls through every branch to the unknown-type
case: the reply is the `Error` envelope
`Unknown message type: {'Execute': {}}`, not the `Response` the claim
(and the spec's scenario) requires, and no capability is invoked. -/
theorem C1_object_tag_rejected :
    IPCMessage.from_dict C1_line = .ok C1_msg ∧
    (handle_message C1_state C1_msg).reply =
      create_error_response (.str "1")
        ("Unknown message type: \x7b\x27Execute\x27: \x7b\x7d\x7d") .null ∧
    isErrorKind (handle_message C1_state C1_msg).reply.message_type = true ∧
    isResponseKind (handle_message C1_state C1_msg).reply.message_type = false ∧
    (handle_message C1_state C1_msg).evs = [] :=
  ⟨rfl, rfl, rfl, rfl, rfl⟩

/-! ## Trace predicates for the shutdown claims -/

/-- No stdout write anywhere in the trace segment. -/
def noOutB (tr : List Ev) : Bool := tr.all (fun e => !e.isOut)

/-- No `Stop` response anywhere in the trace segment. -/
def noStopOutB (tr : List Ev) : Bool := tr.all (fun e => !e.isStopOut)

/-- Some `Stop` response occurs in the trace. -/
def hasStopOutB (tr : List Ev) : Bool := tr.any Ev.isStopOut

/-- After the first `Stop` response in the trace, nothing more is written
to stdout. -/
def goodTrace : List Ev → Bool
  | [] => true
  | e :: rest => if e.isStopOut then noOutB rest else goodTrace rest

theorem isStopOut_false_of_isOut_false (e : Ev) (h : e.isOut = false) :
    e.isStopOut = false := by
  cases e with
  | invoke c n a => rfl
  | out src m => exact absurd h (by simp [Ev.isOut])

theorem goodTrace_of_noStopOut (tr : List Ev) (h : noStopOutB tr = true) :
    goodTrace tr = true := by
  induction tr with
  | nil => rfl
  | cons e rest ih =>
      simp [noStopOutB] at h
      rw [goodTrace, if_neg (by simp [h.1])]
      exact ih (by simp [noStopOutB]; exact h.2)

theorem goodTrace_append_left (tr Δ : List Ev) (h : noStopOutB tr = true) :
    goodTrace (tr ++ Δ) = goodTrace Δ := by
  induction tr with
  | nil => rfl
  | cons e rest ih =>
      simp [noStopOutB] at h
      rw [List.cons_append, goodTrace, if_neg (by simp [h.1])]
      exact ih (by simp [noStopOutB]; exact h.2)

theorem noStopOutB_of_noOutB (tr : List Ev) (h : noOutB tr = true) :
    noStopOutB tr = true := by
  simp [noOutB] at h
  simp [noStopOutB]
  intro e he
  exact isStopOut_false_of_isOut_false e (h e he)

theorem goodTrace_append_noOut (tr Δ : List Ev)
    (h : goodTrace tr = true) (hΔ : noOutB Δ = true) :
    goodTrace (tr ++ Δ) = true := by
  induction tr with
  | nil => exact goodTrace_of_noStopOut Δ (noStopOutB_of_noOutB Δ hΔ)
  | cons e rest ih =>
      rw [List.cons_append, goodTrace]
      rw [goodTrace] at h
      by_cases hs : e.isStopOut = true
      · rw [if_pos hs] at h ⊢
        simp [noOutB] at h hΔ ⊢
        exact ⟨h, hΔ⟩
      · rw [if_neg hs] at h ⊢
        exact ih h

/-- The bridge from `goodTrace` to the decomposition statement: once a
`Stop` response appears, the rest of the trace contains no stdout
write. -/
theorem goodTrace_no_out_after (pre : List Ev) (tr suf : List Ev) (m : IPCMessage)
    (hg : goodTrace tr = true)
    (hdec : tr = pre ++ Ev.out "handle_stop" m :: suf) :
    ∀ e ∈ suf, e.isOut = false := by
  induction pre generalizing tr with
  | nil =>
      subst hdec
      rw [List.nil_append, goodTrace, if_pos (by rfl)] at hg
      simp [noOutB] at hg
      intro e he
      exact hg e he
  | cons p pre ih =>
      subst hdec
      rw [List.cons_append, goodTrace] at hg
      by_cases hs : p.isStopOut = true
      · rw [if_pos hs] at hg
        simp [noOutB] at hg
        intro e he
        exact hg.2.2 e he
      · rw [if_neg hs] at hg
        exact ih _ hg rfl

/-! ## Per-step analysis of the read loop -/

theorem countCleanup_append (a b : List Ev) :
    countCleanup (a ++ b) = countCleanup a + countCleanup b := by
  simp [countCleanup, List.filter_append]

theorem countStopOut_append (a b : List Ev) :
    countStopOut (a ++ b) = countStopOut a + countStopOut b := by
  simp [countStopOut, List.filter_append]

theorem countStopOut_of_noStopOut (l : List Ev) (h : noStopOutB l = true) :
    countStopOut l = 0 := by
  simp [noStopOutB] at h
  unfold countStopOut
  rw [List.filter_eq_nil.mpr]
  · rfl
  · intro e he
    simp [h e he]

/-- What one processed line can do: nothing (blank, bad JSON, decode
failure); a non-`Stop` dispatch, which preserves the wrapper state and
emits no `Stop` response and no shutdown `cleanup` invocation; or a
`Stop` dispatch, which clears `is_running` and emits exactly the optional
shutdown `cleanup` invocation followed by the `Stop` response. -/
theorem stepLine_main_cases (s : WState) (item : InLine) :
    stepLine s item = (s, []) ∨
    ((stepLine s item).1 = s ∧ noStopOutB (stepLine s item).2 = true ∧
      countCleanup (stepLine s item).2 = 0) ∨
    ((stepLine s item).1 = { s with is_running := false } ∧
      ∃ m, (stepLine s item).2 =
        (if s.agent.hasOp "cleanup" then [Ev.invoke "handle_stop" "cleanup" []] else []) ++
          [Ev.out "handle_stop" m]) := by
  cases item with
  | blank => exact Or.inl rfl
  | badJson => exact Or.inl rfl
  | json j =>
      dsimp only [stepLine]
      rcases hd : IPCMessage.from_dict j with e | msg
      · exact Or.inl rfl
      · dsimp only
        rcases handle_message_cases s msg with ⟨hstate, htag, hben⟩ | ⟨htag, hstate, hevs⟩
        · refine Or.inr (Or.inl ⟨hstate, ?_, ?_⟩)
          · simp only [noStopOutB, List.all_append]
            refine (Bool.and_eq_true _ _).mpr ⟨?_, ?_⟩
            · simp only [List.all_eq_true]
              intro e he
              simp [isStopOut_false_of_isOut_false e (hben e he).1]
            · simp [Ev.isStopOut, htag]
          · rw [countCleanup_append]
            rw [countCleanup_eq_zero _ hben]
            simp [countCleanup, Ev.isStopCleanup]
        · refine Or.inr (Or.inr ⟨hstate, (handle_message s msg).reply, ?_⟩)
          rw [hevs, htag]

theorem stepLine_agent (s : WState) (item : InLine) :
    (stepLine s item).1.agent = s.agent := by
  rcases stepLine_main_cases s item with h | ⟨h, _⟩ | ⟨h, _⟩
  · rw [h]
  · rw [h]
  · rw [h]

/-! ## System-level invariants -/

/-- Once the read loop has observed `is_running = false` — or indeed at
any point after `is_running` is cleared — a step of either task reads no
input and emits nothing. -/
theorem sysStep_stopped (σ : Sys) (t : Sched) (h : σ.w.is_running = false) :
    (sysStep σ t).trace = σ.trace ∧ (sysStep σ t).input = σ.input ∧
    (sysStep σ t).w = σ.w := by
  cases t with
  | main =>
      unfold sysStep
      dsimp only
      by_cases hd : σ.mainDone = true
      · rw [if_pos hd]
        exact ⟨rfl, rfl, rfl⟩
      · rw [if_neg hd, if_neg (by simp [h])]
        exact ⟨rfl, rfl, rfl⟩
  | hb now =>
      unfold sysStep
      dsimp only
      by_cases hd : σ.mainDone = true
      · rw [if_pos hd]
        exact ⟨rfl, rfl, rfl⟩
      · rw [if_neg hd, if_neg (by simp [h])]
        exact ⟨rfl, rfl, rfl⟩

/-- The invariant behind claim C8: after the first `Stop` response the
trace has no further stdout write, and a trace containing a `Stop`
response belongs to a wrapper that is no longer running. -/
def Inv8 (σ : Sys) : Prop :=
  goodTrace σ.trace = true ∧ (hasStopOutB σ.trace = true → σ.w.is_running = false)

theorem hasStopOutB_false_iff (tr : List Ev) :
    hasStopOutB tr = false ↔ noStopOutB tr = true := by
  simp [hasStopOutB, noStopOutB]

theorem hasStopOutB_append (a b : List Ev) :
    hasStopOutB (a ++ b) = (hasStopOutB a || hasStopOutB b) := by
  simp [hasStopOutB]

theorem sysStep_Inv8 (σ : Sys) (t : Sched) (h : Inv8 σ) : Inv8 (sysStep σ t) := by
  obtain ⟨h1, h2⟩ := h
  by_cases hr : σ.w.is_running = true
  case neg =>
    obtain ⟨ht, _, hw⟩ := sysStep_stopped σ t (by simpa using hr)
    exact ⟨ht ▸ h1, by rw [ht, hw]; exact h2⟩
  case pos =>
  have hno : noStopOutB σ.trace = true := by
    rw [← hasStopOutB_false_iff]
    by_contra hc
    have := h2 (by simpa using hc)
    rw [hr] at this
    exact Bool.noConfusion this
  cases t with
  | hb now =>
      unfold sysStep
      dsimp only
      by_cases hd : σ.mainDone = true
      · rw [if_pos hd]; exact ⟨h1, h2⟩
      · rw [if_neg hd, if_pos hr]
        constructor
        · rw [goodTrace_append_left _ _ hno]
          rfl
        · intro hh
          rw [hasStopOutB_append] at hh
          rw [(hasStopOutB_false_iff _).mpr hno] at hh
          simp [hasStopOutB, Ev.isStopOut] at hh
  | main =>
      unfold sysStep
      dsimp only
      by_cases hd : σ.mainDone = true
      · rw [if_pos hd]; exact ⟨h1, h2⟩
      · rw [if_neg hd, if_pos hr]
        cases hin : σ.input with
        | nil => exact ⟨h1, h2⟩
        | cons item rest =>
            dsimp only
            rcases stepLine_main_cases σ.w item with hc | ⟨hw, hns, _⟩ | ⟨hw, m, hΔ⟩
            · rw [hc]
              dsimp only
              rw [List.append_nil]
              exact ⟨h1, fun hh => h2 hh⟩
            · constructor
              · rw [goodTrace_append_left _ _ hno]
                exact goodTrace_of_noStopOut _ hns
              · intro hh
                rw [hasStopOutB_append] at hh
                rw [(hasStopOutB_false_iff _).mpr hno,
                    (hasStopOutB_false_iff _).mpr hns] at hh
                simp at hh
            · constructor
              · rw [goodTrace_append_left _ _ hno, hΔ]
                by_cases hcl : σ.w.agent.hasOp "cleanup" = true
                · rw [if_pos hcl]
                  rfl
                · rw [if_neg hcl]
                  rfl
              · intro _
                rw [hw]

theorem runSched_Inv8 (σ : Sys) (sched : List Sched) (h : Inv8 σ) :
    Inv8 (runSched σ sched) := by
  induction sched generalizing σ with
  | nil => exact h
  | cons t ts ih => exact ih (sysStep σ t) (sysStep_Inv8 σ t h)

/-! ## Claim C8 -/

/-- C8: handling a `Stop` request always replies with the
`Response{status:"stopped"}` envelope correlated to the request and
clears `is_running` — whatever the behavior object's `cleanup` does,
including raising; once `is_running` is cleared, no further step of
either task reads input or emits anything; and in every scheduled run,
whatever appears in the trace after the `Stop` response contains no
stdout write — in particular no Heartbeat envelope is ever emitted after
that Response. -/
theorem C8_stop_is_final :
    (∀ (s : WState) (msg : IPCMessage),
       (handle_stop s msg).2.2 = mkReply msg.id (.obj [("status", .str "stopped")]) ∧
       (handle_stop s msg).1.is_running = false) ∧
    (∀ (σ : Sys) (t : Sched), σ.w.is_running = false →
       (sysStep σ t).trace = σ.trace ∧ (sysStep σ t).input = σ.input) ∧
    (∀ (w : WState) (input : List InLine) (sched : List Sched)
       (pre : List Ev) (m : IPCMessage) (suf : List Ev),
       (runSched (mkSys w input) sched).trace = pre ++ Ev.out "handle_stop" m :: suf →
       ∀ e ∈ suf, e.isOut = false) := by
  refine ⟨?_, ?_, ?_⟩
  · intro s msg
    exact ⟨(handle_stop_spec s msg).2, by rw [(handle_stop_spec s msg).1]⟩
  · intro σ t h
    obtain ⟨h1, h2, _⟩ := sysStep_stopped σ t h
    exact ⟨h1, h2⟩
  · intro w input sched pre m suf hdec
    have hinv : Inv8 (runSched (mkSys w input) sched) :=
      runSched_Inv8 _ _ ⟨rfl, by intro hh; simp [mkSys, hasStopOutB] at hh⟩
    exact goodTrace_no_out_after pre _ suf m hinv.1 hdec

/-- A behavior object whose `cleanup` raises. -/
def C8_agent : Agent := ⟨[("cleanup", fun _ => .error "OSError: socket already closed")]⟩

def C8_state : WState := ⟨C8_agent, .str "a8", .str "/tmp/agent.py", true⟩

def C8_stop_msg : IPCMessage :=
  { id := .str "51", message_type := .str "Stop", payload := .null, timestamp := none }

def C8_stop_line : InLine :=
  .json (.obj [("id", .str "51"), ("message_type", .str "Stop")])

theorem C8_stop_is_final_witness :
    ((handle_stop C8_state C8_stop_msg).2.2 =
        mkReply (.str "51") (.obj [("status", .str "stopped")]) ∧
      (handle_stop C8_state C8_stop_msg).1.is_running = false) ∧
    ((sysStep (runSched (mkSys C8_state [C8_stop_line]) [Sched.main]) (Sched.hb "60.0")).trace =
        (runSched (mkSys C8_state [C8_stop_line]) [Sched.main]).trace ∧
      (sysStep (runSched (mkSys C8_state [C8_stop_line]) [Sched.main]) (Sched.hb "60.0")).input =
        (runSched (mkSys C8_state [C8_stop_line]) [Sched.main]).input) ∧
    (∀ e ∈ ([] : List Ev), e.isOut = false) := by
  refine ⟨C8_stop_is_final.1 C8_state C8_stop_msg,
          C8_stop_is_final.2.1 _ (Sched.hb "60.0") rfl,
          C8_stop_is_final.2.2 C8_state [C8_stop_line] [Sched.main, Sched.hb "60.0", Sched.main]
            [Ev.invoke "handle_stop" "cleanup" []]
            (mkReply (.str "51") (.obj [("status", .str "stopped")])) [] rfl⟩

/-! ## Claim C2 -/

theorem sysStep_counts (σ : Sys) (t : Sched)
    (hcl : σ.w.agent.hasOp "cleanup" = true)
    (h1 : countCleanup σ.trace = countStopOut σ.trace)
    (h2 : countStopOut σ.trace ≤ 1)
    (h3 : 1 ≤ countStopOut σ.trace → σ.w.is_running = false) :
    (sysStep σ t).w.agent = σ.w.agent ∧
    countCleanup (sysStep σ t).trace = countStopOut (sysStep σ t).trace ∧
    countStopOut (sysStep σ t).trace ≤ 1 ∧
    (1 ≤ countStopOut (sysStep σ t).trace → (sysStep σ t).w.is_running = false) := by
  by_cases hr : σ.w.is_running = true
  case neg =>
    obtain ⟨ht, _, hw⟩ := sysStep_stopped σ t (by simpa using hr)
    rw [ht, hw]
    exact ⟨rfl, h1, h2, h3⟩
  case pos =>
  have hz : countStopOut σ.trace = 0 := by
    by_contra hc
    have := h3 (by omega)
    rw [hr] at this
    exact Bool.noConfusion this
  have hcz : countCleanup σ.trace = 0 := by rw [h1, hz]
  cases t with
  | hb now =>
      unfold sysStep
      dsimp only
      by_cases hd : σ.mainDone = true
      · rw [if_pos hd]
        exact ⟨rfl, h1, h2, h3⟩
      · rw [if_neg hd, if_pos hr]
        refine ⟨rfl, ?_, ?_, ?_⟩
        · rw [countCleanup_append, countStopOut_append, hcz, hz]
          rfl
        · rw [countStopOut_append, hz]
          simp [countStopOut, Ev.isStopOut]
        · intro hh
          rw [countStopOut_append, hz] at hh
          rw [show countStopOut [Ev.out "heartbeat" (heartbeatMessage now)] = 0 from rfl] at hh
          omega
  | main =>
      unfold sysStep
      dsimp only
      by_cases hd : σ.mainDone = true
      · rw [if_pos hd]
        exact ⟨rfl, h1, h2, h3⟩
      · rw [if_neg hd, if_pos hr]
        cases hin : σ.input with
        | nil => exact ⟨rfl, h1, h2, h3⟩
        | cons item rest =>
            dsimp only
            rcases stepLine_main_cases σ.w item with hc | ⟨hw, hns, hcc⟩ | ⟨hw, m, hΔ⟩
            · rw [hc]
              dsimp only
              rw [List.append_nil]
              exact ⟨rfl, h1, h2, fun hh => h3 hh⟩
            · have hsz : countStopOut (stepLine σ.w item).2 = 0 :=
                countStopOut_of_noStopOut _ hns
              refine ⟨by rw [stepLine_agent], ?_, ?_, ?_⟩
              · rw [countCleanup_append, countStopOut_append, hcz, hz, hcc, hsz]
              · rw [countStopOut_append, hz, hsz]
                omega
              · intro hh
                rw [countStopOut_append, hz, hsz] at hh
                omega
            · rw [hΔ, if_pos hcl]
              refine ⟨by rw [stepLine_agent], ?_, ?_, ?_⟩
              · rw [countCleanup_append, countStopOut_append, hcz, hz]
                rfl
              · rw [countStopOut_append, hz]
                rw [show countStopOut
                      ([Ev.invoke "handle_stop" "cleanup" []] ++ [Ev.out "handle_stop" m]) = 1
                    from rfl]
              · intro _
                rw [hw]

theorem runSched_counts (σ : Sys) (sched : List Sched)
    (hcl : σ.w.agent.hasOp "cleanup" = true)
    (h1 : countCleanup σ.trace = countStopOut σ.trace)
    (h2 : countStopOut σ.trace ≤ 1)
    (h3 : 1 ≤ countStopOut σ.trace → σ.w.is_running = false) :
    countCleanup (runSched σ sched).trace = countStopOut (runSched σ sched).trace ∧
    countStopOut (runSched σ sched).trace ≤ 1 := by
  induction sched generalizing σ with
  | nil => exact ⟨h1, h2⟩
  | cons t ts ih =>
      obtain ⟨hag, g1, g2, g3⟩ := sysStep_counts σ t hcl h1 h2 h3
      exact ih (sysStep σ t) (by rw [hag]; exact hcl) g1 g2 g3

/-- C2 (amended): with a `cleanup` capability present, every scheduled
run invokes the shutdown path's `cleanup` exactly as many times as it
emits a `Stop` response — exactly once for a `Stop`-driven shutdown, and
(per the counterexample) zero times for an EndOfStream-driven one — and
never more than once. -/
theorem C2_cleanup_matches_stop (w : WState) (input : List InLine) (sched : List Sched)
    (hcl : w.agent.hasOp "cleanup" = true) :
    countCleanup (runSched (mkSys w input) sched).trace =
      countStopOut (runSched (mkSys w input) sched).trace ∧
    countStopOut (runSched (mkSys w input) sched).trace ≤ 1 :=
  runSched_counts (mkSys w input) sched hcl rfl (by simp [mkSys, countStopOut])
    (by intro hh; simp [mkSys, countStopOut] at hh)

def C2_agent : Agent := ⟨[("cleanup", fun _ => .ok .null)]⟩

def C2_state : WState := ⟨C2_agent, .str "a2", .str "/tmp/agent.py", true⟩

/-- C2 counterexample: an EndOfStream-driven shutdown — the input closes
with no `Stop` message — returns from the read loop without ever invoking
the behavior object's `cleanup`, although it is present: the claim's
"exactly once, never zero times" fails for EOF-driven shutdown. -/
theorem C2_counterexample :
    C2_state.agent.hasOp "cleanup" = true ∧
    (runSched (mkSys C2_state []) [Sched.main]).mainDone = true ∧
    countCleanup (runSched (mkSys C2_state []) [Sched.main]).trace = 0 :=
  ⟨rfl, rfl, rfl⟩

def C2_w_state : WState := ⟨C2_agent, .str "a2w", .str "/tmp/agent.py", true⟩

def C2_stop_line : InLine :=
  .json (.obj [("id", .str "61"), ("message_type", .str "Stop")])

theorem C2_cleanup_matches_stop_witness :
    countCleanup (runSched (mkSys C2_w_state [C2_stop_line]) [Sched.main, Sched.main]).trace =
      countStopOut (runSched (mkSys C2_w_state [C2_stop_line]) [Sched.main, Sched.main]).trace ∧
    countStopOut (runSched (mkSys C2_w_state [C2_stop_line]) [Sched.main, Sched.main]).trace ≤ 1 :=
  C2_cleanup_matches_stop C2_w_state [C2_stop_line] [Sched.main, Sched.main] rfl
